import Mathlib

/-!
Verification of the `foo` Python binding package
(`tutorials/cmake_python_wrapper/v1/python/foo/__init__.py`).

The module loads `libfoo.so` via `ctypes.cdll.LoadLibrary`, declares
`lib.square.restype = ctypes.c_int` and `lib.square.argtypes = [ctypes.c_int]`,
and exposes `square(value) = lib.square(value)`.

We embed the FFI semantics shallowly: `ctypes.c_int` is a 32-bit signed
integer, and marshaling an arbitrary Python integer through `c_int`
reduces it into the signed 32-bit range (two's-complement wraparound).
-/

namespace Foo

/-- Width in bits of `ctypes.c_int` (a C `int`). -/
def cIntBits : Nat := 32

/-- Largest value of the native signed integer type (`INT_MAX` for `c_int`). -/
def INT_MAX : Int := 2 ^ 31 - 1

/-- Smallest value of the native signed integer type (`INT_MIN` for `c_int`). -/
def INT_MIN : Int := -(2 ^ 31)

/-- Reduce an arbitrary integer into the signed 32-bit range, as `ctypes`
marshaling through `c_int` does (two's-complement truncation). -/
def toCInt (n : Int) : Int := (n + 2 ^ 31) % 2 ^ 32 - 2 ^ 31

/-- Modelled from the spec: the native symbol `int square(int)` exported by
`libfoo.so` (its C source is not part of the repository snapshot). Per the
spec it returns the mathematical square of its argument reinterpreted as the
native signed integer return type, with overflow beyond the native width
being wraparound. -/
def nativeSquare (n : Int) : Int := toCInt (n * n)

/-- The Python function `square(value)` (lines 12-22 of `__init__.py`):
it passes `value` through the declared `argtypes` marshaling (`c_int`
truncation) and returns the native result, itself a `c_int`. -/
def square (value : Int) : Int := nativeSquare (toCInt value)

/-- A `ctypes` argument/return type appearing in the binding. Only
`ctypes.c_int` is used (lines 8-9 of `__init__.py`). -/
inductive CType where
  | cInt
deriving DecidableEq, Repr

/-- Call Descriptor: the declared contract of the one foreign symbol. -/
structure CallDescriptor where
  symbolName : String
  argtypes : List CType
  restype : CType
deriving DecidableEq, Repr

/-- The descriptor established by lines 8-9 of `__init__.py`. -/
def squareDescriptor : CallDescriptor :=
  { symbolName := "square", argtypes := [CType.cInt], restype := CType.cInt }

/-- Environment the module load runs in: whether `libfoo.so` is present on
the search path, and whether it exports the symbol `square`. -/
structure LibraryEnv where
  libPresent : Bool
  exportsSquare : Bool
deriving DecidableEq, Repr

/-- The errors module initialization can raise. `loadError` models the
`OSError` raised by `ctypes.cdll.LoadLibrary` when the library cannot be
located or loaded (line 7); `symbolResolutionError` models the
`AttributeError` raised by the `lib.square` attribute lookup when the
loaded library does not export `square` (lines 8-9). -/
inductive BindError where
  | loadError
  | symbolResolutionError
deriving DecidableEq, Repr

/-- State of the loaded module: the opened library handle (`lib`) with the
number of times the library was mapped, and the Call Descriptor configured
on `lib.square`. -/
structure ModuleState where
  handles : Nat
  descr : CallDescriptor
deriving DecidableEq, Repr

/-- Executing the module body of `__init__.py` (lines 7-9): load the
library, then resolve `square` and set its `restype` and `argtypes`.
Either step can fail, and failure propagates (nothing is caught). -/
def initModule (env : LibraryEnv) : Except BindError ModuleState :=
  if env.libPresent = false then Except.error BindError.loadError
  else if env.exportsSquare = false then Except.error BindError.symbolResolutionError
  else Except.ok { handles := 1, descr := squareDescriptor }

/-- Importing the `foo` package: Python executes the module body only the
first time; a later import returns the cached module object unchanged. -/
def importFoo (env : LibraryEnv) (cache : Option ModuleState) :
    Except BindError ModuleState :=
  match cache with
  | some s => Except.ok s
  | none => initModule env

/-- Calling `square` on a loaded module: the result together with the
module state after the call. The body of `square` only reads `lib.square`
and calls it; it assigns nothing. -/
def callSquare (s : ModuleState) (value : Int) : Int × ModuleState :=
  (square value, s)

/-! ### Arithmetic lemmas about `toCInt` -/

lemma toCInt_modEq (a : Int) : toCInt a ≡ a [ZMOD (2 ^ 32 : Int)] := by
  unfold toCInt
  have h1 : (a + 2 ^ 31) % 2 ^ 32 ≡ a + 2 ^ 31 [ZMOD (2 ^ 32 : Int)] :=
    Int.emod_emod_of_dvd _ dvd_rfl
  have h2 := Int.ModEq.sub_right (2 ^ 31) h1
  simpa using h2

lemma toCInt_congr {a b : Int} (h : a ≡ b [ZMOD (2 ^ 32 : Int)]) :
    toCInt a = toCInt b := by
  unfold toCInt
  have := Int.ModEq.add_right (2 ^ 31) h
  unfold Int.ModEq at this
  omega

lemma toCInt_of_range {a : Int} (h1 : -(2 ^ 31) ≤ a) (h2 : a < 2 ^ 31) :
    toCInt a = a := by
  unfold toCInt
  have hlo : (0 : Int) ≤ a + 2 ^ 31 := by omega
  have hhi : a + 2 ^ 31 < 2 ^ 32 := by omega
  rw [Int.emod_eq_of_lt hlo hhi]
  omega

lemma toCInt_lower (a : Int) : -(2 ^ 31) ≤ toCInt a := by
  unfold toCInt
  have : (0 : Int) ≤ (a + 2 ^ 31) % 2 ^ 32 := Int.emod_nonneg _ (by norm_num)
  omega

lemma toCInt_upper (a : Int) : toCInt a < 2 ^ 31 := by
  unfold toCInt
  have : (a + 2 ^ 31) % 2 ^ 32 < 2 ^ 32 := Int.emod_lt_of_pos _ (by norm_num)
  omega

lemma toCInt_idem (a : Int) : toCInt (toCInt a) = toCInt a :=
  toCInt_of_range (toCInt_lower a) (toCInt_upper a)

lemma square_eq_square_toCInt (v : Int) : square v = square (toCInt v) := by
  unfold square
  rw [toCInt_idem]

lemma sqrt_INT_MAX_toNat : Nat.sqrt INT_MAX.toNat = 46340 :=
  (Nat.eq_sqrt.mpr (by norm_num [INT_MAX])).symm

/-! ### Claim theorems -/

/-- C1: for every integer `n` whose absolute value is strictly less than
`floor (sqrt INT_MAX)` of the native signed width (`c_int`), `square n`
returns exactly `n * n`, with no overflow. -/
theorem square_exact_below_sqrt_INT_MAX (n : Int)
    (h : n.natAbs < Nat.sqrt INT_MAX.toNat) : square n = n * n := by
  rw [sqrt_INT_MAX_toNat] at h
  have hlo : -(2 ^ 31) ≤ n := by omega
  have hhi : n < 2 ^ 31 := by omega
  have hnn0 : (0 : Int) ≤ n * n := mul_self_nonneg n
  have hnn : n * n < 2 ^ 31 := by
    nlinarith [mul_pos (show (0 : Int) < 46340 - n by omega)
      (show (0 : Int) < 46340 + n by omega)]
  unfold square nativeSquare
  rw [toCInt_of_range hlo hhi, toCInt_of_range (by omega) hnn]

/-- Witness for C1 at the concrete input `n = 3`. -/
theorem square_exact_below_sqrt_INT_MAX_witness :
    (3 : Int).natAbs < Nat.sqrt INT_MAX.toNat ∧ square 3 = 3 * 3 :=
  ⟨by rw [sqrt_INT_MAX_toNat]; decide,
   square_exact_below_sqrt_INT_MAX 3 (by rw [sqrt_INT_MAX_toNat]; decide)⟩

/-- C2: `square` performs no range validation: it is a total function on all
integers, and a value that does not fit the native signed width is silently
truncated by the `c_int` marshaling rather than rejected; in particular the
out-of-width input `INT_MAX + 1` is accepted and treated as `INT_MIN`. -/
theorem square_no_range_validation (v : Int) :
    square v = square (toCInt v) ∧ square (INT_MAX + 1) = square INT_MIN :=
  ⟨square_eq_square_toCInt v, by decide⟩

/-- C3: at the overflow boundary, `square INT_MAX` returns the native
wraparound value, namely the square reduced modulo `2 ^ 32` into the signed
width, which is `1`; the function is total, so no error is raised. -/
theorem square_INT_MAX_wraps :
    square INT_MAX = toCInt (INT_MAX * INT_MAX) ∧ square INT_MAX = 1 := by
  constructor <;> decide

/-- C4: when `libfoo.so` cannot be located or loaded, module initialization
fails deterministically with the load error (nothing swallows it), and no
loaded module state — hence no call to `square` — is possible afterward. -/
theorem initModule_load_failure (env : LibraryEnv) (h : env.libPresent = false) :
    initModule env = Except.error BindError.loadError ∧
    ∀ s : ModuleState, initModule env ≠ Except.ok s := by
  unfold initModule
  rw [h]
  simp

/-- Witness for C4 in the environment where the library is absent. -/
theorem initModule_load_failure_witness :
    initModule ⟨false, true⟩ = Except.error BindError.loadError :=
  (initModule_load_failure ⟨false, true⟩ rfl).1

/-- C5: when the loaded library does not export the symbol `square`, the
symbol-resolution error is raised at binding time, during module
initialization (lines 8-9 of the module body), so no module state exists
and no call to `square` can be the first place the failure shows up. -/
theorem initModule_symbol_failure (env : LibraryEnv)
    (h1 : env.libPresent = true) (h2 : env.exportsSquare = false) :
    initModule env = Except.error BindError.symbolResolutionError ∧
    ∀ s : ModuleState, initModule env ≠ Except.ok s := by
  unfold initModule
  rw [h1, h2]
  simp

/-- Witness for C5 in the environment where the library loads but lacks the
symbol. -/
theorem initModule_symbol_failure_witness :
    initModule ⟨true, false⟩ = Except.error BindError.symbolResolutionError :=
  (initModule_symbol_failure ⟨true, false⟩ rfl rfl).1

/-- C6: squaring eliminates the sign: for every `n` within the native
width, `square (-n) = square n`; in particular `square 0 = 0`,
`square (-5) = 25` and `square 5 = 25`. -/
theorem square_neg_eq_square :
    (∀ n : Int, INT_MIN ≤ n → n ≤ INT_MAX → square (-n) = square n) ∧
    square 0 = 0 ∧ square (-5) = 25 ∧ square 5 = 25 := by
  refine ⟨fun n _ _ => ?_, by decide, by decide, by decide⟩
  unfold square nativeSquare
  apply toCInt_congr
  have hm := (toCInt_modEq (-n)).mul (toCInt_modEq (-n))
  rw [neg_mul_neg] at hm
  exact hm.trans ((toCInt_modEq n).mul (toCInt_modEq n)).symm

/-- Witness for C6 at the concrete in-width input `n = 7`. -/
theorem square_neg_eq_square_witness : square (-7) = square 7 :=
  square_neg_eq_square.1 7 (by decide) (by decide)

/-- C7: loading the binding twice is idempotent: once a first load
succeeded with state `s`, a second import returns the cached module state
`s` unchanged, raises no error, and the state still holds a single library
handle (no duplicate). -/
theorem importFoo_idempotent (env : LibraryEnv) (s : ModuleState)
    (h : initModule env = Except.ok s) :
    importFoo env (some s) = Except.ok s ∧ s.handles = 1 := by
  refine ⟨rfl, ?_⟩
  obtain ⟨lp, es⟩ := env
  cases lp <;> cases es <;> simp [initModule] at h
  rw [← h]

/-- Witness for C7 after the successful load in the fully-working
environment. -/
theorem importFoo_idempotent_witness :
    importFoo ⟨true, true⟩ (some ⟨1, squareDescriptor⟩) =
      Except.ok ⟨1, squareDescriptor⟩ :=
  (importFoo_idempotent ⟨true, true⟩ ⟨1, squareDescriptor⟩ rfl).1

/-- C8: once load has completed, the Call Descriptor is exactly the one
declared at load time (symbol `"square"`, one `c_int` argument, `c_int`
return) and every call to `square` leaves the module state — handle and
descriptor included — unchanged: the call has no side effect. -/
theorem callSquare_preserves_state (env : LibraryEnv) (s : ModuleState)
    (h : initModule env = Except.ok s) (value : Int) :
    s.descr.symbolName = "square" ∧ s.descr.argtypes = [CType.cInt] ∧
    s.descr.restype = CType.cInt ∧ (callSquare s value).2 = s := by
  obtain ⟨lp, es⟩ := env
  cases lp <;> cases es <;> simp [initModule] at h
  rw [← h]
  exact ⟨rfl, rfl, rfl, rfl⟩

/-- Witness for C8 after the successful load, at the concrete argument
`5`. -/
theorem callSquare_preserves_state_witness :
    (callSquare ⟨1, squareDescriptor⟩ 5).2 = ⟨1, squareDescriptor⟩ :=
  (callSquare_preserves_state ⟨true, true⟩ ⟨1, squareDescriptor⟩ rfl 5).2.2.2

/-- C10: `square` is deterministic: calling it with the same argument from
any two module states yields the same result, a repeated call after a first
call yields the first result again, and the result depends on nothing but
the argument (it equals the pure function `square`). -/
theorem callSquare_deterministic (s1 s2 : ModuleState) (value : Int) :
    (callSquare s1 value).1 = (callSquare s2 value).1 ∧
    (callSquare (callSquare s1 value).2 value).1 = (callSquare s1 value).1 ∧
    (callSquare s1 value).1 = square value :=
  ⟨rfl, rfl, rfl⟩

/-- C9: every value returned by `square` lies within the signed 32-bit
range of the declared `c_int` return type, independent of the host
language's unbounded integers. -/
theorem square_in_c_int_range (n : Int) :
    INT_MIN ≤ square n ∧ square n ≤ INT_MAX := by
  unfold square nativeSquare INT_MIN INT_MAX
  have h1 := toCInt_lower (toCInt n * toCInt n)
  have h2 := toCInt_upper (toCInt n * toCInt n)
  omega

end Foo
